import Mathlib

/-!
Shallow embedding of the ball-on-incline physics engine
(`src/ball_physics.py`, `src/simulation.py`) over the real numbers, together
with proofs of the specification claims about it.

Python `numpy` float arithmetic is idealised as exact real arithmetic;
`np.linalg.norm` becomes `Real.sqrt` of the sum of squares, and the external
ODE solver (`scipy.integrate.odeint`) is abstracted as a function parameter
of the integrator, since it is an external collaborator of the engine.
-/

namespace BallSim

noncomputable section

open Real

/-- `Ball` from `ball_physics.py`: mass, radius, planar position and
velocity, 3-axis angular velocity, and the derived moment of inertia
`0.4 * mass * radius**2` computed in `__init__`. -/
structure Ball where
  mass : ℝ
  radius : ℝ
  position : ℝ × ℝ
  velocity : ℝ × ℝ
  angularVelocity : ℝ × ℝ × ℝ
  momentOfInertia : ℝ

/-- `Ball.__init__`: stores the given fields unchanged (no validation is
performed in the source) and computes `moment_of_inertia = 0.4*mass*radius**2`. -/
def Ball.init (mass radius : ℝ) (position velocity : ℝ × ℝ)
    (angularVelocity : ℝ × ℝ × ℝ) : Ball :=
  { mass := mass
    radius := radius
    position := position
    velocity := velocity
    angularVelocity := angularVelocity
    momentOfInertia := 0.4 * mass * radius ^ 2 }

/-- `Ball.kinetic_energy`: `0.5*m*|v|² + 0.5*I*|ω|²`. -/
def Ball.kineticEnergy (b : Ball) : ℝ :=
  0.5 * b.mass * (b.velocity.1 ^ 2 + b.velocity.2 ^ 2) +
    0.5 * b.momentOfInertia *
      (b.angularVelocity.1 ^ 2 + b.angularVelocity.2.1 ^ 2 + b.angularVelocity.2.2 ^ 2)

/-- `Ball.angular_momentum`: `I • ω`. -/
def Ball.angularMomentum (b : Ball) : ℝ × ℝ × ℝ :=
  (b.momentOfInertia * b.angularVelocity.1,
   b.momentOfInertia * b.angularVelocity.2.1,
   b.momentOfInertia * b.angularVelocity.2.2)

/-- `Ball.linear_momentum`: `m • v`. -/
def Ball.linearMomentum (b : Ball) : ℝ × ℝ :=
  (b.mass * b.velocity.1, b.mass * b.velocity.2)

/-- `Surface` from `ball_physics.py`: friction coefficient, angle
(stored in radians), optional rectangular bounds. -/
structure Surface where
  frictionCoeff : ℝ
  angle : ℝ
  bounds : Option (ℝ × ℝ × ℝ × ℝ)

/-- `Surface.__init__`: converts the angle from degrees to radians
(`np.radians`) and stores the other fields unchanged (no validation). -/
def Surface.init (frictionCoeff angleDeg : ℝ)
    (bounds : Option (ℝ × ℝ × ℝ × ℝ)) : Surface :=
  { frictionCoeff := frictionCoeff
    angle := angleDeg * Real.pi / 180
    bounds := bounds }

/-- `np.linalg.norm` of a 2-vector. -/
def norm2 (v : ℝ × ℝ) : ℝ :=
  Real.sqrt (v.1 ^ 2 + v.2 ^ 2)

/-- `np.linalg.norm` of a 3-vector. -/
def norm3 (v : ℝ × ℝ × ℝ) : ℝ :=
  Real.sqrt (v.1 ^ 2 + v.2.1 ^ 2 + v.2.2 ^ 2)

/-- The centre-to-centre distance `np.linalg.norm(delta_pos)` computed by
`BallDynamics.handle_ball_collision`. -/
def ballDistance (b other : Ball) : ℝ :=
  norm2 (b.position.1 - other.position.1, b.position.2 - other.position.2)

/-- `BallDynamics.normal_force`: `N = m * g * cos θ`. -/
def normalForce (b : Ball) (s : Surface) (g : ℝ) : ℝ :=
  b.mass * g * Real.cos s.angle

/-- `BallDynamics.handle_wall_collision` (lines 160-185 of
`ball_physics.py`). Returns the updated ball together with the Python
return value. The source duplicates the same body for `axis == 0` and
`axis == 1` and falls through to `return False` for any other axis. -/
def handleWallCollision (b : Ball) (wallPosition : ℝ) (axis : ℕ)
    (restitution : ℝ) : Ball × Bool :=
  if axis = 0 then
    let distance := b.position.1 - wallPosition
    if |distance| ≤ b.radius then
      ({ b with
          velocity := (-restitution * b.velocity.1, b.velocity.2)
          position :=
            (if distance > 0 then wallPosition + b.radius
             else wallPosition - b.radius, b.position.2) }, true)
    else (b, false)
  else if axis = 1 then
    let distance := b.position.2 - wallPosition
    if |distance| ≤ b.radius then
      ({ b with
          velocity := (b.velocity.1, -restitution * b.velocity.2)
          position :=
            (b.position.1,
             if distance > 0 then wallPosition + b.radius
             else wallPosition - b.radius) }, true)
    else (b, false)
  else (b, false)

/-- The collision normal `delta_pos / distance` computed by
`BallDynamics.handle_ball_collision` (line 192). The division by
`distance` is performed whenever the penetration test passes, which does
not exclude `distance = 0`. -/
def collisionNormal (b other : Ball) : ℝ × ℝ :=
  ((b.position.1 - other.position.1) / ballDistance b other,
   (b.position.2 - other.position.2) / ballDistance b other)

/-- `v_normal = np.dot(relative_velocity, normal)` (line 196). -/
def relativeNormalSpeed (b other : Ball) : ℝ :=
  (b.velocity.1 - other.velocity.1) * (collisionNormal b other).1 +
    (b.velocity.2 - other.velocity.2) * (collisionNormal b other).2

/-- The impulse of lines 199-200:
`-(1+e) * v_normal * normal * (m1*m2)/(m1+m2)`. -/
def collisionImpulse (b other : Ball) (restitution : ℝ) : ℝ × ℝ :=
  (-(1 + restitution) * relativeNormalSpeed b other * (collisionNormal b other).1 *
     (b.mass * other.mass / (b.mass + other.mass)),
   -(1 + restitution) * relativeNormalSpeed b other * (collisionNormal b other).2 *
     (b.mass * other.mass / (b.mass + other.mass)))

/-- `BallDynamics.handle_ball_collision` (lines 187-212 of
`ball_physics.py`). Returns the two updated balls and the Python return
value. The positional correction splits the overlap equally along the
normal. -/
def handleBallCollision (b other : Ball) (restitution : ℝ) :
    Ball × Ball × Bool :=
  let distance := ballDistance b other
  if distance ≤ b.radius + other.radius then
    let normal := collisionNormal b other
    let vNormal := relativeNormalSpeed b other
    if vNormal < 0 then
      let impulse := collisionImpulse b other restitution
      let overlap := b.radius + other.radius - distance
      let correction : ℝ × ℝ :=
        (overlap * normal.1 / 2, overlap * normal.2 / 2)
      ({ b with
          velocity := (b.velocity.1 + impulse.1 / b.mass,
                       b.velocity.2 + impulse.2 / b.mass)
          position := (b.position.1 + correction.1,
                       b.position.2 + correction.2) },
       { other with
          velocity := (other.velocity.1 - impulse.1 / other.mass,
                       other.velocity.2 - impulse.2 / other.mass)
          position := (other.position.1 - correction.1,
                       other.position.2 - correction.2) },
       true)
    else (b, other, false)
  else (b, other, false)

/-- The 7-scalar state `[x, y, vx, vy, wx, wy, wz]` exchanged with the
numerical integration step, and also the 7-vector derivative that
`equations_of_motion` returns. -/
structure State7 where
  x : ℝ
  y : ℝ
  vx : ℝ
  vy : ℝ
  wx : ℝ
  wy : ℝ
  wz : ℝ

/-- `BallDynamics.equations_of_motion` (lines 76-158 of `ball_physics.py`).
Returns the 7-vector derivative together with the value the method stores
into the cached `self.is_slipping` flag. The torque
`np.cross((0,0,-r), (Fx,Fy,0))` evaluates to `(r*Fy, -r*Fx, 0)`. -/
def equationsOfMotion (b : Ball) (s : Surface) (g : ℝ) (st : State7) :
    State7 × Bool :=
  let N := normalForce b s g
  let fMax := s.frictionCoeff * N
  if |s.angle| > 1e-6 then
    let cosTheta := Real.cos s.angle
    let sinTheta := Real.sin s.angle
    let inclineDirection : ℝ × ℝ := (cosTheta, -sinTheta)
    let fRequired := (2 / 7) * b.mass * g * sinTheta
    if fRequired > fMax then
      let vMagnitude := Real.sqrt (st.vx ^ 2 + st.vy ^ 2)
      let fFriction : ℝ × ℝ :=
        if vMagnitude > 1e-10 then
          (s.frictionCoeff * N * (-st.vx / vMagnitude),
           s.frictionCoeff * N * (-st.vy / vMagnitude))
        else
          (-(s.frictionCoeff * N) * inclineDirection.1,
           -(s.frictionCoeff * N) * inclineDirection.2)
      let fGravity : ℝ × ℝ := (0, -(b.mass * g))
      let fNormal : ℝ × ℝ := (N * (-sinTheta), N * cosTheta)
      let acceleration : ℝ × ℝ :=
        ((fGravity.1 + fNormal.1 + fFriction.1) / b.mass,
         (fGravity.2 + fNormal.2 + fFriction.2) / b.mass)
      let torque : ℝ × ℝ × ℝ :=
        (b.radius * fFriction.2, -(b.radius * fFriction.1), 0)
      let angularAcceleration : ℝ × ℝ × ℝ :=
        (torque.1 / b.momentOfInertia, torque.2.1 / b.momentOfInertia,
         torque.2.2 / b.momentOfInertia)
      (⟨st.vx, st.vy, acceleration.1, acceleration.2,
        angularAcceleration.1, angularAcceleration.2.1,
        angularAcceleration.2.2⟩, true)
    else
      let aMagnitude := (5 / 7) * g * sinTheta
      let acceleration : ℝ × ℝ :=
        (aMagnitude * inclineDirection.1, aMagnitude * inclineDirection.2)
      let angularAcceleration : ℝ × ℝ × ℝ :=
        if b.radius > 1e-10 then
          (acceleration.2 / b.radius, -acceleration.1 / b.radius, 0)
        else (0, 0, 0)
      (⟨st.vx, st.vy, acceleration.1, acceleration.2,
        angularAcceleration.1, angularAcceleration.2.1,
        angularAcceleration.2.2⟩, false)
  else
    let vMagnitude := Real.sqrt (st.vx ^ 2 + st.vy ^ 2)
    if vMagnitude > 1e-8 then
      let vDirection : ℝ × ℝ := (st.vx / vMagnitude, st.vy / vMagnitude)
      let aMax := (2 / 7) * s.frictionCoeff * g
      let ax := -aMax * vDirection.1
      let ay := -aMax * vDirection.2
      let angularAcceleration : ℝ × ℝ × ℝ :=
        if b.radius > 1e-10 then
          (ay / b.radius, -ax / b.radius, 0)
        else (0, 0, 0)
      (⟨st.vx, st.vy, ax, ay, angularAcceleration.1,
        angularAcceleration.2.1, angularAcceleration.2.2⟩, false)
    else
      (⟨st.vx, st.vy, 0, 0, 0, 0, 0⟩, false)

/-- A wall passed to `run` as the dict `{'position': …, 'axis': …}`
(with `axis` already defaulted to `0` by `wall.get('axis', 0)`). -/
structure Wall where
  position : ℝ
  axis : ℕ

/-- The parameters a `Simulation` run closes over: the constructor
arguments `surface`, `dt`, `total_time`, `g` of `Simulation.__init__`
(stored unchanged, without validation), the `walls` and `restitution`
arguments of `run`, and the external ODE solver `scipy.integrate.odeint`,
abstracted as `integ`: given the 7-dim state and the span `[t, t+dt]` it
returns the last solution row together with the value the dynamics
evaluator's cached `is_slipping` flag holds after the solver's final
derivative evaluation. -/
structure SimParams where
  surface : Surface
  dt : ℝ
  totalTime : ℝ
  g : ℝ
  integ : State7 → ℝ → ℝ → State7 × Bool
  walls : List Wall
  restitution : ℝ

/-- The mutable state of a `Simulation`: the ball, the dynamics
evaluator's cached `is_slipping` flag, the seven recorded series, and the
loop variable `current_time` of `run`. -/
structure SimState where
  ball : Ball
  isSlipping : Bool
  timePoints : List ℝ
  positions : List (ℝ × ℝ)
  velocities : List (ℝ × ℝ)
  angularVelocities : List (ℝ × ℝ × ℝ)
  energies : List ℝ
  angularMomenta : List (ℝ × ℝ × ℝ)
  isSlippingHistory : List Bool
  currentTime : ℝ

/-- `Simulation.__init__`: empty series, freshly created dynamics with
`is_slipping = False`. (`current_time` is set to `0.0` at the top of
`run`; it is initialised to `0` here as well.) -/
def SimState.init (ball : Ball) : SimState :=
  { ball := ball
    isSlipping := false
    timePoints := []
    positions := []
    velocities := []
    angularVelocities := []
    energies := []
    angularMomenta := []
    isSlippingHistory := []
    currentTime := 0 }

/-- `Simulation.get_state_vector`. -/
def getStateVector (b : Ball) : State7 :=
  ⟨b.position.1, b.position.2, b.velocity.1, b.velocity.2,
   b.angularVelocity.1, b.angularVelocity.2.1, b.angularVelocity.2.2⟩

/-- `Simulation.set_state_from_vector`. -/
def setStateFromVector (b : Ball) (st : State7) : Ball :=
  { b with
      position := (st.x, st.y)
      velocity := (st.vx, st.vy)
      angularVelocity := (st.wx, st.wy, st.wz) }

/-- The seven appends at the top of the `run` loop (lines 48-54 of
`simulation.py`), also reused verbatim by the trailing append
(lines 87-94). -/
def snapshot (s : SimState) : SimState :=
  { s with
      timePoints := s.timePoints ++ [s.currentTime]
      positions := s.positions ++ [s.ball.position]
      velocities := s.velocities ++ [s.ball.velocity]
      angularVelocities := s.angularVelocities ++ [s.ball.angularVelocity]
      energies := s.energies ++ [s.ball.kineticEnergy]
      angularMomenta := s.angularMomenta ++ [s.ball.angularMomentum]
      isSlippingHistory := s.isSlippingHistory ++ [s.isSlipping] }

/-- One iteration of the `while` loop of `Simulation.run`
(lines 47-85 of `simulation.py`). The returned boolean is `true` exactly
when the iteration executed `break` (in which case `current_time` is not
advanced, mirroring the source where the `break` precedes
`current_time += self.dt`). -/
def stepBody (p : SimParams) (s : SimState) : SimState × Bool :=
  let s1 := snapshot s
  let r := p.integ (getStateVector s1.ball) s1.currentTime (s1.currentTime + p.dt)
  let s2 := { s1 with ball := setStateFromVector s1.ball r.1, isSlipping := r.2 }
  let b3 := p.walls.foldl
    (fun b w => (handleWallCollision b w.position w.axis p.restitution).1) s2.ball
  let s3 := { s2 with ball := b3 }
  let speed := norm2 s3.ball.velocity
  let angularSpeed := norm3 s3.ball.angularVelocity
  if speed < 1e-6 ∧ angularSpeed < 1e-6 then
    let s4 :=
      { s3 with ball := { s3.ball with velocity := (0, 0), angularVelocity := (0, 0, 0) } }
    if |p.surface.angle| < 1e-6 then (s4, true)
    else ({ s4 with currentTime := s4.currentTime + p.dt }, false)
  else ({ s3 with currentTime := s3.currentTime + p.dt }, false)

/-- Lines 87-94 of `simulation.py`: after the loop, append one trailing
snapshot when the record is empty or its last time is behind
`current_time`. -/
def finalize (s : SimState) : SimState :=
  match s.timePoints.getLast? with
  | none => snapshot s
  | some t => if t < s.currentTime then snapshot s else s

/-- The `while current_time < total_time` loop of `Simulation.run`
followed by `finalize`, with explicit fuel; `none` means the fuel was
exhausted while the loop was still running. -/
def runAux (p : SimParams) : ℕ → SimState → Option SimState
  | 0, s => if s.currentTime < p.totalTime then none else some (finalize s)
  | Nat.succ fuel, s =>
    if s.currentTime < p.totalTime then
      let r := stepBody p s
      if r.2 then some (finalize r.1) else runAux p fuel r.1
    else some (finalize s)

/-- `Simulation.run`: resets `current_time` to `0.0` and enters the loop. -/
def run (p : SimParams) (fuel : ℕ) (s : SimState) : Option SimState :=
  runAux p fuel { s with currentTime := 0 }

/-- The dict returned by `Simulation.get_results` (the seven arrays). -/
structure Results where
  time : List ℝ
  position : List (ℝ × ℝ)
  velocity : List (ℝ × ℝ)
  angularVelocity : List (ℝ × ℝ × ℝ)
  energy : List ℝ
  angularMomentum : List (ℝ × ℝ × ℝ)
  isSlipping : List Bool

/-- `Simulation.get_results` (lines 96-105 of `simulation.py`): builds the
results record from the recorded series. The method only reads the
simulation, so the state component of the returned pair is the input
state unchanged. -/
def getResults (s : SimState) : Results × SimState :=
  (⟨s.timePoints, s.positions, s.velocities, s.angularVelocities,
    s.energies, s.angularMomenta, s.isSlippingHistory⟩, s)

/-- `Simulation.check_energy_conservation` (lines 107-123 of
`simulation.py`). Note the source gates every sample on the evaluator's
current cached flag `self.dynamics.is_slipping` and takes
`initial_energy = self.energies[0]` (recorded kinetic only, no potential
term). -/
def checkEnergyConservation (p : SimParams) (s : SimState)
    (tolerance : ℝ) : Bool :=
  if s.energies.length < 2 then true
  else
    let initialEnergy := s.energies.headD 0
    !(s.positions.enum.any fun ip =>
        let heightChange := -ip.2.1 * Real.sin p.surface.angle
        let potentialEnergy := s.ball.mass * p.g * heightChange
        let totalEnergy := s.energies.getD ip.1 0 + potentialEnergy
        decide (0 < initialEnergy) &&
          (decide (tolerance < |totalEnergy - initialEnergy| / initialEnergy) &&
            !s.isSlipping))

/-- The reconstructed per-sample total energy exactly as the claim words
it: recorded kinetic energy at sample `j` plus `m·g·(−x_j·sinθ)`. -/
def claimTotalEnergy (p : SimParams) (s : SimState) (j : ℕ) : ℝ :=
  s.energies.getD j 0 +
    s.ball.mass * p.g * (-(s.positions.getD j (0, 0)).1 * Real.sin p.surface.angle)

/-- The failure condition as the claim words it: some recorded sample `i`
that is not a slipping sample (per the recorded `is_slipping` series) has
reconstructed total energy whose relative deviation from the initial
total energy, reconstructed the same way at sample 0, exceeds the
tolerance. -/
def claimEnergyBad (p : SimParams) (s : SimState) (tolerance : ℝ) : Prop :=
  ∃ i < s.positions.length,
    s.isSlippingHistory.getD i true = false ∧
      tolerance <
        |claimTotalEnergy p s i - claimTotalEnergy p s 0| / claimTotalEnergy p s 0

/-- Parameters of a `MultiballSimulation` run; as in `SimParams`, the
external solver is abstracted, here as a function of the ball whose
dynamics evaluator is being integrated. -/
structure MSimParams where
  surface : Surface
  dt : ℝ
  totalTime : ℝ
  g : ℝ
  integ : Ball → State7 → ℝ → ℝ → State7
  walls : List Wall
  restitution : ℝ

/-- The mutable state of a `MultiballSimulation`: the balls, the recorded
series (`time_points`, per-ball positions and velocities), and the loop
variable `current_time`. -/
structure MSimState where
  balls : List Ball
  timePoints : List ℝ
  ballPositions : List (List (ℝ × ℝ))
  ballVelocities : List (List (ℝ × ℝ))
  currentTime : ℝ

/-- `MultiballSimulation.__init__`: one empty position/velocity series
per ball. -/
def MSimState.init (balls : List Ball) : MSimState :=
  { balls := balls
    timePoints := []
    ballPositions := balls.map fun _ => []
    ballVelocities := balls.map fun _ => []
    currentTime := 0 }

/-- The snapshot phase of `MultiballSimulation.run` (lines 164-167), also
reused verbatim by the unconditional trailing append (lines 200-203). -/
def msnapshot (s : MSimState) : MSimState :=
  { s with
      timePoints := s.timePoints ++ [s.currentTime]
      ballPositions := s.ballPositions.zipWith (fun l b => l ++ [b.position]) s.balls
      ballVelocities := s.ballVelocities.zipWith (fun l b => l ++ [b.velocity]) s.balls }

/-- The per-ball integration and wall-collision phase of one step of
`MultiballSimulation.run` (lines 169-189). -/
def ballStep (p : MSimParams) (t : ℝ) (b : Ball) : Ball :=
  let sol := p.integ b (getStateVector b) t (t + p.dt)
  let b2 := setStateFromVector b sol
  p.walls.foldl
    (fun b w => (handleWallCollision b w.position w.axis p.restitution).1) b2

/-- The list of index pairs visited by the nested loops
`for i in range(n): for j in range(i+1, n)` (lines 191-192), in the order
the source visits them. -/
def allPairs (n : ℕ) : List (ℕ × ℕ) :=
  (List.range n).flatMap fun i =>
    (List.range' (i + 1) (n - (i + 1))).map fun j => (i, j)

/-- Resolution of one index pair (lines 193-196):
`dynamics_list[i].handle_ball_collision(balls[j], restitution)` mutates
balls `i` and `j` in place. Out-of-range indices cannot occur for the
pairs generated by `allPairs`. -/
def resolvePair (restitution : ℝ) (balls : List Ball) (pr : ℕ × ℕ) :
    List Ball :=
  match balls.get? pr.1, balls.get? pr.2 with
  | some bi, some bj =>
    let r := handleBallCollision bi bj restitution
    (balls.set pr.1 r.1).set pr.2 r.2.1
  | _, _ => balls

/-- The pairwise collision phase of one step (lines 191-196): every pair
produced by `allPairs`, folded in order. -/
def collisionPhase (restitution : ℝ) (balls : List Ball) : List Ball :=
  (allPairs balls.length).foldl (resolvePair restitution) balls

/-- One iteration of the `while` loop of `MultiballSimulation.run`
(lines 163-198): snapshot all balls, integrate each ball independently
and resolve its wall collisions, resolve every index pair, advance
`current_time`. This loop has no `break`. -/
def mstep (p : MSimParams) (s : MSimState) : MSimState :=
  let s1 := msnapshot s
  let newBalls := s1.balls.map (ballStep p s1.currentTime)
  let resolved := collisionPhase p.restitution newBalls
  { s1 with balls := resolved, currentTime := s1.currentTime + p.dt }

/-- The `while current_time < total_time` loop of
`MultiballSimulation.run` followed by the unconditional trailing
snapshot (lines 200-203), with explicit fuel; `none` means the fuel was
exhausted while the loop was still running. -/
def mrunAux (p : MSimParams) : ℕ → MSimState → Option MSimState
  | 0, s => if s.currentTime < p.totalTime then none else some (msnapshot s)
  | Nat.succ fuel, s =>
    if s.currentTime < p.totalTime then mrunAux p fuel (mstep p s)
    else some (msnapshot s)

/-- `MultiballSimulation.run`: resets `current_time` to `0.0` and enters
the loop. -/
def mrun (p : MSimParams) (fuel : ℕ) (s : MSimState) : Option MSimState :=
  mrunAux p fuel { s with currentTime := 0 }

/-- The claimed record invariant: the seven recorded series of a
`Simulation` have equal length. -/
def recOk (s : SimState) : Prop :=
  s.positions.length = s.timePoints.length ∧
  s.velocities.length = s.timePoints.length ∧
  s.angularVelocities.length = s.timePoints.length ∧
  s.energies.length = s.timePoints.length ∧
  s.angularMomenta.length = s.timePoints.length ∧
  s.isSlippingHistory.length = s.timePoints.length

/-- A trivial run configuration used by witnesses: the identity solver,
no walls, a flat frictionless surface, a zero time horizon. -/
def trivialParams : SimParams :=
  { surface := ⟨0, 0, none⟩
    dt := 1
    totalTime := 0
    g := 10
    integ := fun st _ _ => (st, false)
    walls := []
    restitution := 1 }

/-- The multiball counterpart of `trivialParams`. -/
def trivialMParams : MSimParams :=
  { surface := ⟨0, 0, none⟩
    dt := 1
    totalTime := 0
    g := 10
    integ := fun _ st _ _ => st
    walls := []
    restitution := 1 }

/-- Index order on ball pairs: the order in which the nested loops of
lines 191-192 visit them (outer index first, then inner index). -/
def pairBefore (p q : ℕ × ℕ) : Prop :=
  p.1 < q.1 ∨ (p.1 = q.1 ∧ p.2 < q.2)

/-- Recorded state exhibiting the gap between the per-sample slipping
history and the evaluator's current cached flag: two samples with kinetic
energies 1 and 2, both recorded as non-slipping, while the current cached
`is_slipping` flag is `True`. -/
def cexState : SimState :=
  { ball := Ball.init 1 1 (0, 0) (0, 0) (0, 0, 0)
    isSlipping := true
    timePoints := [0, 1]
    positions := [(0, 0), (0, 0)]
    velocities := [(0, 0), (0, 0)]
    angularVelocities := [(0, 0, 0), (0, 0, 0)]
    energies := [1, 2]
    angularMomenta := [(0, 0, 0), (0, 0, 0)]
    isSlippingHistory := [false, false]
    currentTime := 2 }

/-- A ball whose construction the specification says must be rejected:
`mass = −1 ≤ 0` and `radius = −1 ≤ 0`. -/
def invalidBall : Ball := Ball.init (-1) (-1) (0, 0) (0, 0) (0, 0, 0)

/-- A run configuration the specification says must be rejected:
negative friction, `dt = −1 ≤ 0`, `total_time = 0 ≤ 0`, and a
restitution of 2 outside `[0, 1]`. -/
def invalidParams : SimParams :=
  { surface := ⟨-1, 0, none⟩
    dt := -1
    totalTime := 0
    g := 10
    integ := fun st _ _ => (st, false)
    walls := []
    restitution := 2 }

/-! ## Theorems about the claims -/

/-- C10: `handle_ball_collision` divides by the centre-to-centre distance
when computing the collision normal, and the penetration test
`distance ≤ r₁ + r₂` does not exclude `distance = 0`: the distance
vanishes exactly when the centres coincide (so the division is safe
precisely under the precondition that the centres differ, where the
distance is positive), and for exactly coincident centres with
nonnegative radii the penetration test passes, so the division-by-zero
branch is reachable. -/
theorem ballCollision_distance_safety (b other : Ball) :
    (ballDistance b other = 0 ↔ b.position = other.position) ∧
    (b.position ≠ other.position → 0 < ballDistance b other) ∧
    (b.position = other.position → 0 ≤ b.radius + other.radius →
      ballDistance b other ≤ b.radius + other.radius) := by
  have hiff : ballDistance b other = 0 ↔ b.position = other.position := by
    unfold ballDistance norm2
    dsimp only
    rw [Real.sqrt_eq_zero (by positivity)]
    constructor
    · intro h
      have h1 : b.position.1 - other.position.1 = 0 := by
        nlinarith [sq_nonneg (b.position.1 - other.position.1),
          sq_nonneg (b.position.2 - other.position.2)]
      have h2 : b.position.2 - other.position.2 = 0 := by
        nlinarith [sq_nonneg (b.position.1 - other.position.1),
          sq_nonneg (b.position.2 - other.position.2)]
      exact Prod.ext_iff.mpr ⟨by linarith, by linarith⟩
    · intro h
      simp [h]
  have h0 : 0 ≤ ballDistance b other := by
    unfold ballDistance norm2; positivity
  refine ⟨hiff, ?_, ?_⟩
  · intro hne
    rcases lt_or_eq_of_le h0 with h | h
    · exact h
    · exact absurd (hiff.mp h.symm) hne
  · intro heq hr
    rw [hiff.mpr heq]
    exact hr

/-- Witness for C10: two exactly coincident unit balls have zero
centre-to-centre distance, yet pass the penetration test. -/
theorem ballCollision_distance_safety_witness :
    ballDistance (Ball.init 1 1 (0, 0) (0, 0) (0, 0, 0))
        (Ball.init 1 1 (0, 0) (0, 0) (0, 0, 0)) = 0 ∧
    ballDistance (Ball.init 1 1 (0, 0) (0, 0) (0, 0, 0))
        (Ball.init 1 1 (0, 0) (0, 0) (0, 0, 0)) ≤
      (Ball.init 1 1 (0, 0) (0, 0) (0, 0, 0)).radius +
        (Ball.init 1 1 (0, 0) (0, 0) (0, 0, 0)).radius :=
  ⟨(ballCollision_distance_safety _ _).1.mpr rfl,
   (ballCollision_distance_safety _ _).2.2 rfl (by norm_num [Ball.init])⟩

/-- C6: for each axis in {0, 1}, `handle_wall_collision` returns `True`
exactly when `|position[axis] − wall| ≤ radius`; on a hit it reflects that
velocity component by `−restitution`, clamps `position[axis]` to exactly
`wall ± radius` on the side the centre was on, and leaves the other
position component, the other velocity component, and the angular
velocity (and every other field) unchanged; on a miss the ball is
unchanged and the call returns `False`. -/
theorem wallCollision_spec (b : Ball) (wallPosition restitution : ℝ) :
    (((handleWallCollision b wallPosition 0 restitution).2 = true ↔
        |b.position.1 - wallPosition| ≤ b.radius) ∧
      (|b.position.1 - wallPosition| ≤ b.radius →
        handleWallCollision b wallPosition 0 restitution =
          ({ b with
              velocity := (-restitution * b.velocity.1, b.velocity.2)
              position :=
                (if b.position.1 - wallPosition > 0 then wallPosition + b.radius
                 else wallPosition - b.radius, b.position.2) }, true)) ∧
      (¬|b.position.1 - wallPosition| ≤ b.radius →
        handleWallCollision b wallPosition 0 restitution = (b, false))) ∧
    (((handleWallCollision b wallPosition 1 restitution).2 = true ↔
        |b.position.2 - wallPosition| ≤ b.radius) ∧
      (|b.position.2 - wallPosition| ≤ b.radius →
        handleWallCollision b wallPosition 1 restitution =
          ({ b with
              velocity := (b.velocity.1, -restitution * b.velocity.2)
              position :=
                (b.position.1,
                 if b.position.2 - wallPosition > 0 then wallPosition + b.radius
                 else wallPosition - b.radius) }, true)) ∧
      (¬|b.position.2 - wallPosition| ≤ b.radius →
        handleWallCollision b wallPosition 1 restitution = (b, false))) := by
  refine ⟨⟨?_, ?_, ?_⟩, ?_, ?_, ?_⟩ <;>
    simp only [handleWallCollision, if_pos rfl, Nat.one_ne_zero, if_false,
      if_neg (by norm_num : ¬(1 : ℕ) = 0)] <;>
    split_ifs <;> simp_all

/-- Witness for C6: a unit ball centred at the origin against the wall
`x = 1/2` (axis 0) registers a hit. -/
theorem wallCollision_spec_witness :
    (handleWallCollision (Ball.init 1 1 (0, 0) (0, 0) (0, 0, 0)) (1 / 2) 0 1).2 =
      true :=
  (wallCollision_spec (Ball.init 1 1 (0, 0) (0, 0) (0, 0, 0)) (1 / 2) 1).1.1.mpr
    (by norm_num [Ball.init, abs_le])

/-- C9: `get_results` does not mutate the recorded series, and two calls
with no intervening `run` return results whose seven arrays are
element-wise identical. -/
theorem getResults_idempotent (s : SimState) :
    (getResults s).2 = s ∧
    (getResults ((getResults s).2)).1.time = (getResults s).1.time ∧
    (getResults ((getResults s).2)).1.position = (getResults s).1.position ∧
    (getResults ((getResults s).2)).1.velocity = (getResults s).1.velocity ∧
    (getResults ((getResults s).2)).1.angularVelocity =
      (getResults s).1.angularVelocity ∧
    (getResults ((getResults s).2)).1.energy = (getResults s).1.energy ∧
    (getResults ((getResults s).2)).1.angularMomentum =
      (getResults s).1.angularMomentum ∧
    (getResults ((getResults s).2)).1.isSlipping = (getResults s).1.isSlipping :=
  ⟨rfl, rfl, rfl, rfl, rfl, rfl, rfl, rfl⟩

/-- C3: `handle_ball_collision` leaves the total linear momentum
`m₁·v₁ + m₂·v₂` exactly unchanged (the impulse applied to the two balls
is equal and opposite); a velocity change occurs only when the balls
overlap (centre distance at most the sum of radii) and are approaching
(`v_rel · n̂ < 0`), and in that case each ball's velocity changes by the
impulse `−(1+e)·(v_rel·n̂)·n̂·(m₁·m₂)/(m₁+m₂)` scaled by the sign and the
inverse of its own mass. -/
theorem ballCollision_momentum (b other : Ball) (restitution : ℝ)
    (hm1 : b.mass ≠ 0) (hm2 : other.mass ≠ 0)
    (_hpos : b.position ≠ other.position) :
    ((handleBallCollision b other restitution).1.linearMomentum.1 +
        (handleBallCollision b other restitution).2.1.linearMomentum.1 =
      b.linearMomentum.1 + other.linearMomentum.1) ∧
    ((handleBallCollision b other restitution).1.linearMomentum.2 +
        (handleBallCollision b other restitution).2.1.linearMomentum.2 =
      b.linearMomentum.2 + other.linearMomentum.2) ∧
    (((handleBallCollision b other restitution).1.velocity ≠ b.velocity ∨
        (handleBallCollision b other restitution).2.1.velocity ≠ other.velocity) →
      ballDistance b other ≤ b.radius + other.radius ∧
        relativeNormalSpeed b other < 0) ∧
    (ballDistance b other ≤ b.radius + other.radius →
      relativeNormalSpeed b other < 0 →
      (handleBallCollision b other restitution).1.velocity =
        (b.velocity.1 + (collisionImpulse b other restitution).1 / b.mass,
         b.velocity.2 + (collisionImpulse b other restitution).2 / b.mass) ∧
      (handleBallCollision b other restitution).2.1.velocity =
        (other.velocity.1 - (collisionImpulse b other restitution).1 / other.mass,
         other.velocity.2 - (collisionImpulse b other restitution).2 / other.mass)) := by
  simp only [handleBallCollision]
  split_ifs with h1 h2
  · refine ⟨?_, ?_, fun _ => ⟨h1, h2⟩, fun _ _ => ⟨rfl, rfl⟩⟩
    · simp only [Ball.linearMomentum]
      field_simp
      ring
    · simp only [Ball.linearMomentum]
      field_simp
      ring
  · refine ⟨rfl, rfl, ?_, ?_⟩
    · intro h
      rcases h with h | h <;> exact absurd rfl h
    · intro _ hc
      exact absurd hc h2
  · refine ⟨rfl, rfl, ?_, ?_⟩
    · intro h
      rcases h with h | h <;> exact absurd rfl h
    · intro hd _
      exact absurd hd h1

/-- Witness for C3: two overlapping unit balls approaching head-on along
the x-axis with restitution 1 conserve the x-component of total linear
momentum. -/
theorem ballCollision_momentum_witness :
    (handleBallCollision (Ball.init 1 1 (0, 0) (1, 0) (0, 0, 0))
          (Ball.init 1 1 (1, 0) (-1, 0) (0, 0, 0)) 1).1.linearMomentum.1 +
        (handleBallCollision (Ball.init 1 1 (0, 0) (1, 0) (0, 0, 0))
          (Ball.init 1 1 (1, 0) (-1, 0) (0, 0, 0)) 1).2.1.linearMomentum.1 =
      (Ball.init 1 1 (0, 0) (1, 0) (0, 0, 0)).linearMomentum.1 +
        (Ball.init 1 1 (1, 0) (-1, 0) (0, 0, 0)).linearMomentum.1 :=
  (ballCollision_momentum _ _ 1 (by norm_num [Ball.init])
    (by norm_num [Ball.init]) (by norm_num [Ball.init, Prod.ext_iff])).1

/-- C1: on an inclined surface (`|angle| > 1e-6`), `equations_of_motion`
selects the slipping regime exactly when `(2/7)·m·g·sinθ` exceeds
`μ·m·g·cosθ`, caching `is_slipping = True`; in that regime the kinetic
friction force (recovered as `m·a − F_gravity − F_normal`) equals
`μ·m·g·cosθ` times the unit vector opposite the current velocity when the
speed exceeds `1e-10`, and minus `μ·m·g·cosθ` times the downslope
direction `(cosθ, −sinθ)` otherwise; when the required force does not
exceed the available friction, the rolling branch caches
`is_slipping = False`. -/
theorem eom_slipping_regime (b : Ball) (s : Surface) (g : ℝ) (st : State7)
    (hangle : |s.angle| > 1e-6) (hm : b.mass ≠ 0) :
    ((equationsOfMotion b s g st).2 = true ↔
      (2 / 7) * b.mass * g * Real.sin s.angle >
        s.frictionCoeff * (b.mass * g * Real.cos s.angle)) ∧
    ((2 / 7) * b.mass * g * Real.sin s.angle >
        s.frictionCoeff * (b.mass * g * Real.cos s.angle) →
      (Real.sqrt (st.vx ^ 2 + st.vy ^ 2) > 1e-10 →
        (b.mass * (equationsOfMotion b s g st).1.vx - 0 -
            b.mass * g * Real.cos s.angle * -Real.sin s.angle,
         b.mass * (equationsOfMotion b s g st).1.vy - -(b.mass * g) -
            b.mass * g * Real.cos s.angle * Real.cos s.angle) =
          (s.frictionCoeff * (b.mass * g * Real.cos s.angle) *
              (-st.vx / Real.sqrt (st.vx ^ 2 + st.vy ^ 2)),
           s.frictionCoeff * (b.mass * g * Real.cos s.angle) *
              (-st.vy / Real.sqrt (st.vx ^ 2 + st.vy ^ 2)))) ∧
      (¬Real.sqrt (st.vx ^ 2 + st.vy ^ 2) > 1e-10 →
        (b.mass * (equationsOfMotion b s g st).1.vx - 0 -
            b.mass * g * Real.cos s.angle * -Real.sin s.angle,
         b.mass * (equationsOfMotion b s g st).1.vy - -(b.mass * g) -
            b.mass * g * Real.cos s.angle * Real.cos s.angle) =
          (-(s.frictionCoeff * (b.mass * g * Real.cos s.angle)) * Real.cos s.angle,
           -(s.frictionCoeff * (b.mass * g * Real.cos s.angle)) *
             -Real.sin s.angle))) ∧
    (¬(2 / 7) * b.mass * g * Real.sin s.angle >
        s.frictionCoeff * (b.mass * g * Real.cos s.angle) →
      (equationsOfMotion b s g st).2 = false) := by
  simp only [equationsOfMotion, normalForce]
  rw [if_pos hangle]
  split_ifs with hslip hv hr
  · refine ⟨by simp [hslip], fun _ => ⟨fun hv' => ?_, fun hv' => absurd hv hv'⟩,
      fun hc => absurd hslip hc⟩
    have hvne : Real.sqrt (st.vx ^ 2 + st.vy ^ 2) ≠ 0 :=
      ne_of_gt (lt_trans (by norm_num) hv)
    field_simp
    constructor <;> ring
  · refine ⟨by simp [hslip], fun _ => ⟨fun hv' => absurd hv' hv, fun _ => ?_⟩,
      fun hc => absurd hslip hc⟩
    field_simp
    ring
  · exact ⟨by simp [hslip], fun hc => absurd hc hslip, fun _ => rfl⟩
  · exact ⟨by simp [hslip], fun hc => absurd hc hslip, fun _ => rfl⟩

/-- C2: on an inclined surface where `(2/7)·m·g·sinθ ≤ μ·m·g·cosθ`,
`equations_of_motion` returns the linear acceleration
`(5/7)·g·sinθ · (cosθ, −sinθ)` and, when the radius exceeds `1e-10`, the
angular acceleration `(a_y/r, −a_x/r, 0)` derived from that acceleration
(zero when the radius is at most `1e-10`); this is the rolling branch, so
the cached flag is `False`. -/
theorem eom_rolling_incline (b : Ball) (s : Surface) (g : ℝ) (st : State7)
    (hangle : |s.angle| > 1e-6)
    (hroll : (2 / 7) * b.mass * g * Real.sin s.angle ≤
      s.frictionCoeff * (b.mass * g * Real.cos s.angle)) :
    ((equationsOfMotion b s g st).1.vx =
        (5 / 7) * g * Real.sin s.angle * Real.cos s.angle ∧
      (equationsOfMotion b s g st).1.vy =
        (5 / 7) * g * Real.sin s.angle * -Real.sin s.angle) ∧
    (b.radius > 1e-10 →
      (equationsOfMotion b s g st).1.wx =
          (equationsOfMotion b s g st).1.vy / b.radius ∧
        (equationsOfMotion b s g st).1.wy =
          -(equationsOfMotion b s g st).1.vx / b.radius ∧
        (equationsOfMotion b s g st).1.wz = 0) ∧
    (¬b.radius > 1e-10 →
      (equationsOfMotion b s g st).1.wx = 0 ∧
        (equationsOfMotion b s g st).1.wy = 0 ∧
        (equationsOfMotion b s g st).1.wz = 0) ∧
    (equationsOfMotion b s g st).2 = false := by
  simp only [equationsOfMotion, normalForce]
  rw [if_pos hangle, if_neg (not_lt.mpr hroll)]
  split_ifs with hr
  · exact ⟨⟨rfl, rfl⟩, fun _ => ⟨rfl, rfl, rfl⟩, fun hc => absurd hr hc, rfl⟩
  · exact ⟨⟨rfl, rfl⟩, fun hc => absurd hc hr, fun _ => ⟨rfl, rfl, rfl⟩, rfl⟩

/-- Witness for C1: a unit ball at rest on a frictionless 60° incline is
classified as slipping. -/
theorem eom_slipping_regime_witness :
    (equationsOfMotion (Ball.init 1 1 (0, 0) (0, 0) (0, 0, 0))
        ⟨0, 60 * Real.pi / 180, none⟩ 10 ⟨0, 0, 0, 0, 0, 0, 0⟩).2 = true := by
  have hsin : 0 < Real.sin (60 * Real.pi / 180) := by
    apply Real.sin_pos_of_pos_of_lt_pi
    · positivity
    · nlinarith [Real.pi_pos]
  exact (eom_slipping_regime _ _ 10 _
      (by show |60 * Real.pi / 180| > 1e-6
          rw [abs_of_pos (by positivity)]
          nlinarith [Real.pi_gt_three])
      (by norm_num [Ball.init])).1.mpr
    (by show (2 : ℝ) / 7 * 1 * 10 * Real.sin (60 * Real.pi / 180) >
          0 * (1 * 10 * Real.cos (60 * Real.pi / 180))
        nlinarith [hsin])

/-- Witness for C2: a unit ball on a frictionless 60° declivity (negative
angle) takes the rolling branch, with the stated acceleration and a
cleared flag. -/
theorem eom_rolling_incline_witness :
    ((equationsOfMotion (Ball.init 1 1 (0, 0) (0, 0) (0, 0, 0))
          ⟨0, -(60 * Real.pi / 180), none⟩ 10 ⟨0, 0, 0, 0, 0, 0, 0⟩).1.vx =
        (5 / 7) * 10 * Real.sin (-(60 * Real.pi / 180)) *
          Real.cos (-(60 * Real.pi / 180)) ∧
      (equationsOfMotion (Ball.init 1 1 (0, 0) (0, 0) (0, 0, 0))
          ⟨0, -(60 * Real.pi / 180), none⟩ 10 ⟨0, 0, 0, 0, 0, 0, 0⟩).1.vy =
        (5 / 7) * 10 * Real.sin (-(60 * Real.pi / 180)) *
          -Real.sin (-(60 * Real.pi / 180))) ∧
    (equationsOfMotion (Ball.init 1 1 (0, 0) (0, 0) (0, 0, 0))
        ⟨0, -(60 * Real.pi / 180), none⟩ 10 ⟨0, 0, 0, 0, 0, 0, 0⟩).2 = false := by
  have hsin : 0 < Real.sin (60 * Real.pi / 180) := by
    apply Real.sin_pos_of_pos_of_lt_pi
    · positivity
    · nlinarith [Real.pi_pos]
  have h := eom_rolling_incline (Ball.init 1 1 (0, 0) (0, 0) (0, 0, 0))
    ⟨0, -(60 * Real.pi / 180), none⟩ 10 ⟨0, 0, 0, 0, 0, 0, 0⟩
    (by show |-(60 * Real.pi / 180)| > 1e-6
        rw [abs_neg, abs_of_pos (by positivity)]
        nlinarith [Real.pi_gt_three])
    (by show (2 : ℝ) / 7 * 1 * 10 * Real.sin (-(60 * Real.pi / 180)) ≤
          0 * (1 * 10 * Real.cos (-(60 * Real.pi / 180)))
        rw [Real.sin_neg]
        nlinarith [hsin])
  exact ⟨h.1, h.2.2.2⟩

/-- A snapshot appends one element to each of the seven series, so it
preserves the equal-length invariant. -/
theorem recOk_snapshot {s : SimState} (h : recOk s) : recOk (snapshot s) := by
  obtain ⟨h1, h2, h3, h4, h5, h6⟩ := h
  refine ⟨?_, ?_, ?_, ?_, ?_, ?_⟩ <;> simp [snapshot] <;> omega

/-- A loop iteration touches the recorded series only through its
initial snapshot. -/
theorem stepBody_series (p : SimParams) (s : SimState) :
    (stepBody p s).1.timePoints = (snapshot s).timePoints ∧
    (stepBody p s).1.positions = (snapshot s).positions ∧
    (stepBody p s).1.velocities = (snapshot s).velocities ∧
    (stepBody p s).1.angularVelocities = (snapshot s).angularVelocities ∧
    (stepBody p s).1.energies = (snapshot s).energies ∧
    (stepBody p s).1.angularMomenta = (snapshot s).angularMomenta ∧
    (stepBody p s).1.isSlippingHistory = (snapshot s).isSlippingHistory := by
  simp only [stepBody]
  split_ifs <;> exact ⟨rfl, rfl, rfl, rfl, rfl, rfl, rfl⟩

/-- A loop iteration preserves the equal-length invariant. -/
theorem recOk_stepBody (p : SimParams) {s : SimState} (h : recOk s) :
    recOk (stepBody p s).1 := by
  obtain ⟨e1, e2, e3, e4, e5, e6, e7⟩ := stepBody_series p s
  have hs := recOk_snapshot h
  exact ⟨by rw [e2, e1]; exact hs.1, by rw [e3, e1]; exact hs.2.1,
    by rw [e4, e1]; exact hs.2.2.1, by rw [e5, e1]; exact hs.2.2.2.1,
    by rw [e6, e1]; exact hs.2.2.2.2.1, by rw [e7, e1]; exact hs.2.2.2.2.2⟩

/-- The trailing append guarantees a last recorded time at or beyond the
loop's final `current_time`, and leaves `current_time` itself unchanged. -/
theorem finalize_last (s : SimState) :
    ∃ t, (finalize s).timePoints.getLast? = some t ∧ s.currentTime ≤ t ∧
      (finalize s).currentTime = s.currentTime := by
  unfold finalize
  cases hgl : s.timePoints.getLast? with
  | none =>
    exact ⟨s.currentTime, by simp [snapshot], le_refl _, rfl⟩
  | some t =>
    dsimp only
    split_ifs with hlt
    · exact ⟨s.currentTime, by simp [snapshot], le_refl _, rfl⟩
    · exact ⟨t, hgl, not_lt.mp hlt, rfl⟩

/-- The trailing append preserves the equal-length invariant. -/
theorem recOk_finalize {s : SimState} (h : recOk s) : recOk (finalize s) := by
  unfold finalize
  cases s.timePoints.getLast? with
  | none => exact recOk_snapshot h
  | some t =>
    dsimp only
    split_ifs with _
    · exact recOk_snapshot h
    · exact h

/-- Every state the stepping loop returns satisfies the equal-length
invariant and ends with a sample at or beyond the stopping time. -/
theorem runAux_some (p : SimParams) (fuel : ℕ) (s s' : SimState)
    (hrun : runAux p fuel s = some s') (h0 : recOk s) :
    recOk s' ∧ ∃ t, s'.timePoints.getLast? = some t ∧ s'.currentTime ≤ t := by
  induction fuel generalizing s with
  | zero =>
    unfold runAux at hrun
    split_ifs at hrun
    rw [Option.some_inj] at hrun
    subst hrun
    obtain ⟨t, h1, h2, h3⟩ := finalize_last s
    exact ⟨recOk_finalize h0, t, h1, by rw [h3]; exact h2⟩
  | succ f ih =>
    simp only [runAux] at hrun
    split_ifs at hrun with hlt hb
    · rw [Option.some_inj] at hrun
      subst hrun
      obtain ⟨t, h1, h2, h3⟩ := finalize_last (stepBody p s).1
      exact ⟨recOk_finalize (recOk_stepBody p h0), t, h1, by rw [h3]; exact h2⟩
    · exact ih _ hrun (recOk_stepBody p h0)
    · rw [Option.some_inj] at hrun
      subst hrun
      obtain ⟨t, h1, h2, h3⟩ := finalize_last s
      exact ⟨recOk_finalize h0, t, h1, by rw [h3]; exact h2⟩

/-- C7: throughout a `Simulation.run` the seven recorded series keep
equal lengths (the invariant holds initially, is preserved by every loop
iteration and by the trailing append), and when `run` returns, the last
recorded sample's time is at or beyond the time at which the stepping
loop stopped. -/
theorem run_record_invariants (p : SimParams) (fuel : ℕ) (s s' : SimState)
    (hrun : run p fuel s = some s') (h0 : recOk s) :
    recOk s' ∧ (∃ t, s'.timePoints.getLast? = some t ∧ s'.currentTime ≤ t) ∧
    ∀ u : SimState, recOk u → recOk (snapshot u) ∧ recOk (stepBody p u).1 :=
  ⟨(runAux_some p fuel _ s' hrun h0).1, (runAux_some p fuel _ s' hrun h0).2,
   fun _ hu => ⟨recOk_snapshot hu, recOk_stepBody p hu⟩⟩

/-- Witness for C7: a zero-horizon run from a fresh simulation state
returns the single trailing snapshot, which satisfies both record
properties. -/
theorem run_record_invariants_witness :
    recOk (SimState.init (Ball.init 1 1 (0, 0) (0, 0) (0, 0, 0))) ∧
    recOk (finalize (SimState.init (Ball.init 1 1 (0, 0) (0, 0) (0, 0, 0)))) ∧
    ∃ t,
      (finalize (SimState.init (Ball.init 1 1 (0, 0) (0, 0)
          (0, 0, 0)))).timePoints.getLast? = some t ∧
      (finalize (SimState.init (Ball.init 1 1 (0, 0) (0, 0)
          (0, 0, 0)))).currentTime ≤ t := by
  have h0 : recOk (SimState.init (Ball.init 1 1 (0, 0) (0, 0) (0, 0, 0))) := by
    simp [recOk, SimState.init]
  have h := run_record_invariants trivialParams 1 _
    (finalize (SimState.init (Ball.init 1 1 (0, 0) (0, 0) (0, 0, 0))))
    (by norm_num [run, runAux, trivialParams, SimState.init]) h0
  exact ⟨h0, h.1, h.2.1⟩

/-- Membership in the pair list of the nested collision loops:
exactly the pairs `(i, j)` with `i < j < n`. -/
theorem mem_allPairs (n i j : ℕ) : (i, j) ∈ allPairs n ↔ i < j ∧ j < n := by
  simp only [allPairs, List.mem_flatMap, List.mem_range, List.mem_map,
    List.mem_range'_1, Prod.mk.injEq]
  constructor
  · rintro ⟨a, ha, b, ⟨hb1, hb2⟩, rfl, rfl⟩
    omega
  · rintro ⟨hij, hjn⟩
    exact ⟨i, by omega, j, ⟨by omega, by omega⟩, rfl, rfl⟩

/-- The nested collision loops visit no pair twice. -/
theorem allPairs_nodup (n : ℕ) : (allPairs n).Nodup := by
  unfold allPairs
  rw [List.nodup_flatMap]
  constructor
  · intro i _
    exact List.Nodup.map (fun _ _ h => (Prod.ext_iff.mp h).2) (List.nodup_range' ..)
  · refine (List.pairwise_lt_range n).imp ?_
    intro a b hab
    intro x hx hy
    simp only [List.mem_map] at hx hy
    obtain ⟨j, _, rfl⟩ := hx
    obtain ⟨k, _, hk⟩ := hy
    have : a = b := (Prod.ext_iff.mp hk.symm).1
    omega

/-- The nested collision loops visit the pairs in index order. -/
theorem allPairs_sorted (n : ℕ) : (allPairs n).Pairwise pairBefore := by
  have : allPairs n =
      (List.map (fun i => (List.range' (i + 1) (n - (i + 1))).map
        fun j => (i, j)) (List.range n)).flatten := rfl
  rw [this, List.pairwise_flatten]
  constructor
  · intro l hl
    simp only [List.mem_map, List.mem_range] at hl
    obtain ⟨i, _, rfl⟩ := hl
    rw [List.pairwise_map]
    refine (List.pairwise_lt_range' ..).imp ?_
    intro a b hab
    exact Or.inr ⟨rfl, hab⟩
  · rw [List.pairwise_map]
    refine (List.pairwise_lt_range n).imp ?_
    intro a b hab x hx y hy
    simp only [List.mem_map] at hx hy
    obtain ⟨j, _, rfl⟩ := hx
    obtain ⟨k, _, rfl⟩ := hy
    exact Or.inl hab

/-- Any state the multiball loop returns has reached the time horizon,
and its last recorded time is the final `current_time` (appended by the
unconditional trailing snapshot). -/
theorem mrunAux_some (p : MSimParams) (fuel : ℕ) (s s' : MSimState)
    (hrun : mrunAux p fuel s = some s') :
    p.totalTime ≤ s'.currentTime ∧
      s'.timePoints.getLast? = some s'.currentTime := by
  induction fuel generalizing s with
  | zero =>
    unfold mrunAux at hrun
    split_ifs at hrun with h
    rw [Option.some_inj] at hrun
    subst hrun
    exact ⟨not_lt.mp h, by simp [msnapshot]⟩
  | succ f ih =>
    unfold mrunAux at hrun
    split_ifs at hrun with h
    · exact ih _ hrun
    · rw [Option.some_inj] at hrun
      subst hrun
      exact ⟨not_lt.mp h, by simp [msnapshot]⟩

/-- C8: a `MultiballSimulation.run` never stops before `current_time`
reaches `total_time` (any returned state satisfies
`total_time ≤ current_time`; there is no rest-based early exit), the
unconditional trailing snapshot makes the last recorded time equal to the
final `current_time` (hence at or beyond `total_time`), and each step
resolves, after integrating every ball, exactly the pairs `(i, j)` with
`i < j`, each exactly once, in index order. -/
theorem mrun_structure (p : MSimParams) (fuel : ℕ) (s s' : MSimState)
    (hrun : mrun p fuel s = some s') :
    p.totalTime ≤ s'.currentTime ∧
    s'.timePoints.getLast? = some s'.currentTime ∧
    (∀ u : MSimState,
      (mstep p u).balls =
        (allPairs u.balls.length).foldl (resolvePair p.restitution)
          (u.balls.map (ballStep p u.currentTime)) ∧
      (mstep p u).timePoints = u.timePoints ++ [u.currentTime] ∧
      (mstep p u).currentTime = u.currentTime + p.dt) ∧
    (∀ n i j, (i, j) ∈ allPairs n ↔ i < j ∧ j < n) ∧
    (∀ n, (allPairs n).Nodup) ∧
    (∀ n, (allPairs n).Pairwise pairBefore) := by
  obtain ⟨h1, h2⟩ := mrunAux_some p fuel _ s' hrun
  refine ⟨h1, h2, ?_, mem_allPairs, allPairs_nodup, allPairs_sorted⟩
  intro u
  refine ⟨?_, rfl, rfl⟩
  simp only [mstep, msnapshot, collisionPhase, List.length_map]

/-- Witness for C8: a zero-horizon multiball run with no balls returns
the single trailing snapshot. -/
theorem mrun_structure_witness :
    trivialMParams.totalTime ≤ (msnapshot (MSimState.init [])).currentTime ∧
      (msnapshot (MSimState.init [])).timePoints.getLast? =
        some (msnapshot (MSimState.init [])).currentTime := by
  have h := mrun_structure trivialMParams 0 (MSimState.init [])
    (msnapshot (MSimState.init []))
    (by norm_num [mrun, mrunAux, trivialMParams, MSimState.init])
  exact ⟨h.1, h.2.1⟩

/-- Counterexample to C5 as stated: `cexState` records sample 1 as
non-slipping with a 100% deviation of its reconstructed total energy
from the sample-0 total, so the claim demands `False`; yet
`check_energy_conservation` returns `True`, because it consults only the
evaluator's current cached flag (here `True`), not the recorded
per-sample history. -/
theorem checkEnergy_claim_cex :
    checkEnergyConservation trivialParams cexState (1 / 20) = true ∧
      claimEnergyBad trivialParams cexState (1 / 20) := by
  constructor
  · simp [checkEnergyConservation, cexState]
  · refine ⟨1, by norm_num [cexState], by norm_num [cexState], ?_⟩
    norm_num [claimTotalEnergy, cexState, trivialParams]

/-- C5 (amended): `check_energy_conservation(tolerance)` returns `False`
iff at least two samples are recorded, the evaluator's current cached
`is_slipping` flag (not the recorded per-sample history) is `False`, the
initial reference `energies[0]` (recorded kinetic only, without the
sample-0 potential term) is positive, and some recorded sample's
reconstructed total energy (recorded kinetic plus `m·g·(−x·sinθ)`)
deviates from that reference by more than the tolerance. -/
theorem checkEnergyConservation_false_iff (p : SimParams) (s : SimState)
    (tolerance : ℝ) :
    checkEnergyConservation p s tolerance = false ↔
      2 ≤ s.energies.length ∧ s.isSlipping = false ∧
        0 < s.energies.headD 0 ∧
        ∃ ip ∈ s.positions.enum,
          tolerance <
            |s.energies.getD ip.1 0 +
                s.ball.mass * p.g * (-ip.2.1 * Real.sin p.surface.angle) -
              s.energies.headD 0| / s.energies.headD 0 := by
  simp only [checkEnergyConservation]
  split_ifs with hlen
  · refine iff_of_false (by simp) ?_
    rintro ⟨h2, -⟩
    omega
  · rw [Bool.not_eq_false', List.any_eq_true]
    simp only [Bool.and_eq_true, decide_eq_true_eq, Bool.not_eq_true']
    constructor
    · rintro ⟨ip, hmem, hE0, hdev, hflag⟩
      exact ⟨by omega, hflag, hE0, ip, hmem, hdev⟩
    · rintro ⟨-, hflag, hE0, ip, hmem, hdev⟩
      exact ⟨ip, hmem, hE0, hdev, hflag⟩

/-- Whatever the configuration, a run that returns has recorded at least
one sample (the loop snapshots or the trailing append fires). -/
theorem runAux_ne_nil (p : SimParams) (fuel : ℕ) (s s' : SimState)
    (hrun : runAux p fuel s = some s') : s'.timePoints ≠ [] := by
  have key : ∀ u : SimState, (finalize u).timePoints ≠ [] := by
    intro u hnil
    obtain ⟨t, hgl, -⟩ := finalize_last u
    rw [hnil] at hgl
    simp at hgl
  induction fuel generalizing s with
  | zero =>
    unfold runAux at hrun
    split_ifs at hrun
    rw [Option.some_inj] at hrun
    subst hrun
    exact key s
  | succ f ih =>
    simp only [runAux] at hrun
    split_ifs at hrun with hlt hb
    · rw [Option.some_inj] at hrun
      subst hrun
      exact key _
    · exact ih _ hrun
    · rw [Option.some_inj] at hrun
      subst hrun
      exact key s

/-- Counterexample to C4 as stated: every configuration value the claim
says must raise an error is accepted silently — the ball with
`mass = radius = −1` is constructed with its fields stored unchanged, the
surface with negative friction, `dt ≤ 0`, `total_time ≤ 0` and a
restitution of 2 are accepted, and `run` still returns a trajectory with
one recorded sample instead of being prevented. -/
theorem construction_validation_cex :
    invalidBall.mass = -1 ∧ invalidBall.radius = -1 ∧
    invalidParams.surface.frictionCoeff = -1 ∧
    invalidParams.dt = -1 ∧ invalidParams.totalTime = 0 ∧
    invalidParams.restitution = 2 ∧
    run invalidParams 1 (SimState.init invalidBall) =
      some (finalize (SimState.init invalidBall)) ∧
    (finalize (SimState.init invalidBall)).timePoints = [0] := by
  refine ⟨rfl, rfl, rfl, rfl, rfl, rfl, ?_, ?_⟩
  · norm_num [run, runAux, invalidParams, SimState.init, invalidBall]
  · simp [finalize, SimState.init, snapshot, invalidBall]

/-- C4 (amended): no construction-time validation exists. `Ball`,
`Surface` and the run configuration store every value unchanged —
including non-positive mass, radius, `dt` and `total_time`, negative
friction, and restitutions outside `[0, 1]` — no error is raised, and a
run that returns always produces a non-empty trajectory rather than
being prevented. -/
theorem construction_no_validation (mass radius : ℝ) (pos vel : ℝ × ℝ)
    (av : ℝ × ℝ × ℝ) (mu deg : ℝ) (bd : Option (ℝ × ℝ × ℝ × ℝ))
    (p : SimParams) (fuel : ℕ) (s s' : SimState)
    (hrun : run p fuel s = some s') :
    (Ball.init mass radius pos vel av).mass = mass ∧
    (Ball.init mass radius pos vel av).radius = radius ∧
    (Ball.init mass radius pos vel av).position = pos ∧
    (Ball.init mass radius pos vel av).velocity = vel ∧
    (Surface.init mu deg bd).frictionCoeff = mu ∧
    (Surface.init mu deg bd).angle = deg * Real.pi / 180 ∧
    s'.timePoints ≠ [] :=
  ⟨rfl, rfl, rfl, rfl, rfl, rfl, runAux_ne_nil p fuel _ s' hrun⟩

/-- Witness for C4 (amended) at the invalid configuration: the fields
are stored unchanged and the returned trajectory is non-empty. -/
theorem construction_no_validation_witness :
    (Ball.init (-1) (-1) (0, 0) (0, 0) (0, 0, 0)).mass = -1 ∧
    (Ball.init (-1) (-1) (0, 0) (0, 0) (0, 0, 0)).radius = -1 ∧
    (Ball.init (-1) (-1) (0, 0) (0, 0) (0, 0, 0)).position = (0, 0) ∧
    (Ball.init (-1) (-1) (0, 0) (0, 0) (0, 0, 0)).velocity = (0, 0) ∧
    (Surface.init (-1) 0 none).frictionCoeff = -1 ∧
    (Surface.init (-1) 0 none).angle = 0 * Real.pi / 180 ∧
    (finalize (SimState.init invalidBall)).timePoints ≠ [] :=
  construction_no_validation (-1) (-1) (0, 0) (0, 0) (0, 0, 0) (-1) 0 none
    invalidParams 1 (SimState.init invalidBall)
    (finalize (SimState.init invalidBall))
    (by norm_num [run, runAux, invalidParams, SimState.init, invalidBall])

end

end BallSim
